import Mathlib

/-!
Shallow embedding of the urlshort redirect service (package urlshort plus
main.go). Go maps of type map[string]string are modelled as association
lists with unique keys: `mapInsert` models map assignment (replace the
existing entry for the key, otherwise append) and `findMap` models comma-ok
indexing. The external yaml/json unmarshalling libraries are abstracted as
a function from bytes to either a parse error or the decoded record list;
the external bolt store is modelled by the contents of its single
"URLRedirects" bucket.
-/

namespace Urlshort

/-- An incoming request, reduced to the URL path the handlers inspect
(the Go code only ever reads r.URL.Path). -/
structure Request where
  path : String
deriving DecidableEq, Repr

/-- The observable response a handler writes: an http.Redirect with a
Location and a status code, or a plain page with a status and a body. -/
inductive Response
| redirect (location : String) (status : Nat)
| page (status : Nat) (body : String)
deriving DecidableEq, Repr

/-- An http.Handler: a function from the request to the response it writes. -/
abbrev Handler := Request → Response

/-- http.StatusFound. -/
def statusFound : Nat := 302

/-- A Go map[string]string, as an association list with unique keys. -/
abbrev GoMap := List (String × String)

/-- Comma-ok map indexing: value, ok := m[k]. -/
def findMap : GoMap → String → Option String
| [], _ => none
| (k', v') :: rest, k => if k' = k then some v' else findMap rest k

/-- Map assignment m[k] = v: replace the entry for k when present,
otherwise add a new entry. -/
def mapInsert : GoMap → String → String → GoMap
| [], k, v => [(k, v)]
| (k', v') :: rest, k, v =>
    if k' = k then (k, v) :: rest else (k', v') :: mapInsert rest k v

/-- Whether the map has an entry for the key. -/
def containsKey (m : GoMap) (k : String) : Bool :=
  m.any (fun p => p.1 = k)

/-- Plain Go map indexing m[k]: the zero value "" when the key is absent. -/
def goIndex (m : GoMap) (k : String) : String :=
  (findMap m k).getD ""

/-- One decoded input record (a Go map[string]string with "path" and
"url" fields). -/
abbrev Rcd := GoMap

/-- buildRedirectMap: fold the records into a path-to-url map, reading
each record with plain indexing (missing fields give ""). -/
def buildRedirectMap (data : List Rcd) : GoMap :=
  data.foldl (fun redirects m => mapInsert redirects (goIndex m "path") (goIndex m "url")) []

/-- The redirect-or-fallback closure that MapHandler, YAMLHandler,
JSONHandler and BoltHandler all return (the source repeats this identical
function literal in each constructor). -/
def lookupHandler (paths : GoMap) (fallback : Handler) : Handler :=
  fun r =>
    match findMap paths r.path with
    | some path => Response.redirect path statusFound
    | none => fallback r

/-- MapHandler: redirect via the given map, else call the fallback. -/
def MapHandler (pathsToUrls : GoMap) (fallback : Handler) : Handler :=
  lookupHandler pathsToUrls fallback

/-- Raw file bytes. -/
abbrev Bytes := List UInt8

/-- The external unmarshalling step (yaml.Unmarshal or json.Unmarshal
into []map[string]string): a parse error, or the decoded records. -/
abbrev Unmarshal := Bytes → Except String (List Rcd)

/-- YAMLHandler: unmarshal the bytes; on error return it (and no handler),
else build the redirect map and return the lookup closure. -/
def YAMLHandler (unmarshalYaml : Unmarshal) (yml : Bytes) (fallback : Handler) :
    Except String Handler :=
  match unmarshalYaml yml with
  | Except.error err => Except.error err
  | Except.ok ymlPaths => Except.ok (lookupHandler (buildRedirectMap ymlPaths) fallback)

/-- JSONHandler: same shape as YAMLHandler with the json unmarshaller. -/
def JSONHandler (unmarshalJson : Unmarshal) (data : Bytes) (fallback : Handler) :
    Except String Handler :=
  match unmarshalJson data with
  | Except.error err => Except.error err
  | Except.ok jsonPaths => Except.ok (lookupHandler (buildRedirectMap jsonPaths) fallback)

/-- The bolt store state relevant to the code: the contents of the
"URLRedirects" bucket, or none when the bucket is absent (fresh file). -/
abbrev BoltState := Option GoMap

/-- The seed entry key written on a fresh store. -/
def seedPath : String := "/urlshort-bolt"

/-- The seed entry value written on a fresh store. -/
def seedUrl : String := "https://github.com/bcpoole/urlshort"

/-- tx.CreateBucket("URLRedirects"): a fresh empty bucket, or a nil bucket
handle with ErrBucketExists when the bucket is already there. -/
def createBucketStep (st : BoltState) : Option GoMap × Option String :=
  match st with
  | some _ => (none, some "bucket already exists")
  | none => (some [], none)

/-- Outcome of the db.Update transaction body. -/
inductive UpdateOutcome
| panicked
| committed (st : BoltState)

/-- The db.Update body in BoltHandler. The source guards CreateBucket with
`if err != nil` where err is the variable holding the bolt.Open error,
which is necessarily nil on this path (log.Fatal already fired otherwise),
so the guard never fires; control reaches b.Put even when CreateBucket
failed with a nil bucket handle, and Put on a nil bucket dereferences a
nil pointer and panics inside the transaction. -/
def boltUpdateBody (st : BoltState) : UpdateOutcome :=
  match createBucketStep st with
  | (none, _err2) => UpdateOutcome.panicked
  | (some b, _) => UpdateOutcome.committed (some (mapInsert b seedPath seedUrl))

/-- The db.View cursor scan: copy every bucket entry into the paths map. -/
def readSnapshot : BoltState → GoMap
| none => []
| some b => b.foldl (fun paths kv => mapInsert paths kv.1 kv.2) []

/-- How a call to BoltHandler ends: log.Fatal on an open error, a panic
inside the update transaction, or a normal return of the handler and the
error value. -/
inductive BoltRun
| fatal (msg : String)
| panicked
| ret (finalState : BoltState) (h : Handler) (err : Option String)

/-- BoltHandler: open the store (log.Fatal on failure), run the seeding
update, read the whole bucket into memory, and return the lookup closure
together with a nil error (the only return statement is
`return func(...), nil`). -/
def BoltHandler (openResult : Except String BoltState) (fallback : Handler) : BoltRun :=
  match openResult with
  | Except.error e => BoltRun.fatal e
  | Except.ok st =>
    match boltUpdateBody st with
    | UpdateOutcome.panicked => BoltRun.panicked
    | UpdateOutcome.committed st2 =>
        BoltRun.ret st2 (lookupHandler (readSnapshot st2) fallback) none

/-- The bucket contents after seeding a fresh store. -/
def seededBucket : GoMap := mapInsert [] seedPath seedUrl

/-- The static pathsToUrls map literal in main.go. -/
def pathsToUrls : GoMap :=
  [("/urlshort-godoc", "https://godoc.org/github.com/gophercises/urlshort"),
   ("/yaml-godoc", "https://godoc.org/gopkg.in/yaml.v2")]

/-- The hello handler: fmt.Fprintln writes the greeting and a newline,
with the implicit 200 status. -/
def hello : Handler :=
  fun _ => Response.page 200 "Hello, world!\n"

/-- defaultMux: a ServeMux with hello registered at "/", which matches
every path, so every request gets the greeting. -/
def defaultMux : Handler := hello

/-- How main ends: log.Fatal inside BoltHandler, a panic inside the bolt
update, a panic(err) in main itself, or serving the assembled handler. -/
inductive MainOutcome
| fatalBolt (msg : String)
| panickedBolt
| panicked (msg : String)
| serving (h : Handler)

/-- The jsonData slice main passes on: the read bytes, or nil (empty)
when ioutil.ReadFile failed, since its error is never checked. -/
def jsonDataOf : Except String Bytes → Bytes
| Except.ok bs => bs
| Except.error _ => []

/-- main: build the mux, the MapHandler over it, the BoltHandler over
that, the YAMLHandler over that, the JSONHandler over that, and serve the
JSONHandler; each err check panics, except that the error of reading the
json file is overwritten before it is checked. -/
def main (boltOpen : Except String BoltState) (yamlRead jsonRead : Except String Bytes)
    (unmarshalYaml unmarshalJson : Unmarshal) : MainOutcome :=
  let mux := defaultMux
  let mapHandler := MapHandler pathsToUrls mux
  match BoltHandler boltOpen mapHandler with
  | BoltRun.fatal e => MainOutcome.fatalBolt e
  | BoltRun.panicked => MainOutcome.panickedBolt
  | BoltRun.ret _ boltHandler errB =>
    match errB with
    | some e => MainOutcome.panicked e
    | none =>
      match yamlRead with
      | Except.error e => MainOutcome.panicked e
      | Except.ok yml =>
        match YAMLHandler unmarshalYaml yml boltHandler with
        | Except.error e => MainOutcome.panicked e
        | Except.ok yamlHandler =>
          match JSONHandler unmarshalJson (jsonDataOf jsonRead) yamlHandler with
          | Except.error e => MainOutcome.panicked e
          | Except.ok jsonHandler => MainOutcome.serving jsonHandler

/-- The response served for a request, when main reached serving. -/
def served (o : MainOutcome) (r : Request) : Option Response :=
  match o with
  | MainOutcome.serving h => some (h r)
  | _ => none

/-! Helper lemmas about the Go map model and buildRedirectMap. -/

theorem findMap_mapInsert (m : GoMap) (k v k' : String) :
    findMap (mapInsert m k v) k' = if k = k' then some v else findMap m k' := by
  induction m with
  | nil => simp [mapInsert, findMap]
  | cons p rest ih =>
    obtain ⟨a, b⟩ := p
    by_cases hak : a = k
    · subst hak
      by_cases hkk : a = k'
      · subst hkk
        simp [mapInsert, findMap]
      · simp [mapInsert, findMap, hkk]
    · by_cases hak' : a = k'
      · subst hak'
        have hkk2 : ¬ k = a := fun h => hak h.symm
        simp [mapInsert, findMap, hak, hkk2]
      · simp [mapInsert, findMap, hak, hak', ih]

theorem containsKey_iff_findMap (m : GoMap) (k : String) :
    containsKey m k = true ↔ ∃ v, findMap m k = some v := by
  induction m with
  | nil => simp [containsKey, findMap]
  | cons p rest ih =>
    obtain ⟨a, b⟩ := p
    by_cases hak : a = k
    · simp [containsKey, findMap, hak, List.any_cons]
    · have h1 : containsKey ((a, b) :: rest) k = containsKey rest k := by
        simp [containsKey, List.any_cons, hak]
      rw [h1, ih]
      simp [findMap, hak]

theorem containsKey_mapInsert (m : GoMap) (k v k' : String) :
    containsKey (mapInsert m k v) k' = true ↔ k = k' ∨ containsKey m k' = true := by
  rw [containsKey_iff_findMap, containsKey_iff_findMap]
  by_cases hkk : k = k'
  · simp [findMap_mapInsert, hkk]
  · simp [findMap_mapInsert, hkk]

theorem containsKey_false_iff (m : GoMap) (k : String) :
    containsKey m k = false ↔ findMap m k = none := by
  rw [← Bool.not_eq_true, containsKey_iff_findMap]
  cases hfm : findMap m k <;> simp

theorem length_mapInsert (m : GoMap) (k v : String) :
    (mapInsert m k v).length =
      if containsKey m k then m.length else m.length + 1 := by
  induction m with
  | nil => simp [mapInsert, containsKey]
  | cons p rest ih =>
    obtain ⟨a, b⟩ := p
    by_cases hak : a = k
    · subst hak
      simp [mapInsert, containsKey, List.any_cons]
    · have hck : containsKey ((a, b) :: rest) k = containsKey rest k := by
        simp [containsKey, List.any_cons, hak]
      have hmi : mapInsert ((a, b) :: rest) k v = (a, b) :: mapInsert rest k v := by
        simp [mapInsert, hak]
      rw [hmi, List.length_cons, ih, hck]
      by_cases hc : containsKey rest k = true
      · simp [hc]
      · simp [hc]

theorem buildRedirectMap_concat (data : List Rcd) (m : Rcd) :
    buildRedirectMap (data ++ [m]) =
      mapInsert (buildRedirectMap data) (goIndex m "path") (goIndex m "url") := by
  simp [buildRedirectMap, List.foldl_append]

theorem findMap_buildRedirectMap (data : List Rcd) (k : String) :
    findMap (buildRedirectMap data) k =
      (data.filterMap (fun m =>
        if goIndex m "path" = k then some (goIndex m "url") else none)).getLast? := by
  induction data using List.reverseRecOn with
  | nil => simp [buildRedirectMap, findMap]
  | append_singleton xs m ih =>
    rw [buildRedirectMap_concat, findMap_mapInsert, List.filterMap_append]
    by_cases hp : goIndex m "path" = k
    · simp [hp, List.getLast?_concat]
    · have hne : ¬ (goIndex m "path" = k) := hp
      simp [hne, ih]

theorem containsKey_buildRedirectMap (data : List Rcd) (k : String) :
    containsKey (buildRedirectMap data) k = true ↔
      k ∈ data.map (fun m => goIndex m "path") := by
  induction data using List.reverseRecOn with
  | nil => simp [buildRedirectMap, containsKey]
  | append_singleton xs m ih =>
    rw [buildRedirectMap_concat, containsKey_mapInsert, List.map_append, List.mem_append, ih]
    constructor
    · rintro (h | h)
      · exact Or.inr (by simp [h])
      · exact Or.inl h
    · rintro (h | h)
      · exact Or.inr h
      · simp at h
        exact Or.inl h.symm

theorem length_buildRedirectMap (data : List Rcd) :
    (buildRedirectMap data).length =
      (data.map (fun m => goIndex m "path")).toFinset.card := by
  induction data using List.reverseRecOn with
  | nil => simp [buildRedirectMap]
  | append_singleton xs m ih =>
    rw [buildRedirectMap_concat, length_mapInsert]
    have htf : ((xs ++ [m]).map (fun m => goIndex m "path")).toFinset =
        insert (goIndex m "path") ((xs.map (fun m => goIndex m "path")).toFinset) := by
      ext x
      simp [or_comm]
    rw [List.map_append] at htf
    simp only [List.map_append]
    rw [htf]
    by_cases hc : containsKey (buildRedirectMap xs) (goIndex m "path") = true
    · have hmem : goIndex m "path" ∈ xs.map (fun m => goIndex m "path") :=
        (containsKey_buildRedirectMap xs _).mp hc
      rw [if_pos hc, ih, Finset.card_insert_of_mem (List.mem_toFinset.mpr hmem)]
    · have hmem : goIndex m "path" ∉ xs.map (fun m => goIndex m "path") := by
        intro hk
        exact hc ((containsKey_buildRedirectMap xs _).mpr hk)
      rw [if_neg hc, ih, Finset.card_insert_of_not_mem (fun hx => hmem (List.mem_toFinset.mp hx))]

theorem filterMap_path_of_nodup (data : List Rcd) (m : Rcd)
    (hmem : m ∈ data)
    (hnd : (data.map (fun x => goIndex x "path")).Nodup) :
    data.filterMap (fun x =>
        if goIndex x "path" = goIndex m "path" then some (goIndex x "url") else none)
      = [goIndex m "url"] := by
  induction data with
  | nil => cases hmem
  | cons a rest ih =>
    simp only [List.map_cons, List.nodup_cons] at hnd
    obtain ⟨hnotin, hndrest⟩ := hnd
    rcases List.mem_cons.mp hmem with hma | hmrest
    · subst hma
      have hrest : rest.filterMap (fun x =>
          if goIndex x "path" = goIndex m "path" then some (goIndex x "url") else none) = [] := by
        rw [List.filterMap_eq_nil_iff]
        intro x hx
        have hne : goIndex x "path" ≠ goIndex m "path" := by
          intro he
          rw [← he] at hnotin
          exact hnotin (List.mem_map_of_mem (fun y => goIndex y "path") hx)
        simp [hne]
      simp [List.filterMap_cons, hrest]
    · have hne : goIndex a "path" ≠ goIndex m "path" := by
        intro he
        rw [he] at hnotin
        exact hnotin (List.mem_map_of_mem (fun y => goIndex y "path") hmrest)
      simp [List.filterMap_cons, hne, ih hmrest hndrest]

/-- BoltHandler on a fresh store (bucket absent) seeds the bucket and
returns the lookup closure over the seeded snapshot with a nil error. -/
theorem boltFresh (fb : Handler) :
    BoltHandler (Except.ok none) fb =
      BoltRun.ret (some seededBucket)
        (lookupHandler (readSnapshot (some seededBucket)) fb) none := rfl

/-- When the bolt store is fresh and both unmarshal calls succeed, main
serves the chain JSON over YAML over bolt snapshot over static map over
hello. -/
theorem main_serving_shape
    (yb : Bytes) (yrecs recs : List Rcd) (jr : Except String Bytes)
    (yp jp : Unmarshal)
    (hyp : yp yb = Except.ok yrecs)
    (hjp : jp (jsonDataOf jr) = Except.ok recs) :
    main (Except.ok none) (Except.ok yb) jr yp jp = MainOutcome.serving
      (lookupHandler (buildRedirectMap recs)
        (lookupHandler (buildRedirectMap yrecs)
          (lookupHandler (readSnapshot (some seededBucket))
            (lookupHandler pathsToUrls hello)))) := by
  simp only [main, MapHandler, defaultMux, boltFresh, YAMLHandler, JSONHandler, hyp, hjp]

/-- Claim C3: every lookup handler redirects with HTTP 302 (StatusFound)
to the mapped URL when the request path is a key of its redirect mapping,
and otherwise returns the fallback result on the same request unchanged;
MapHandler, YAMLHandler, JSONHandler and BoltHandler all return exactly
this lookup closure over their respective mapping. -/
theorem lookup_redirect_or_fallback (m : GoMap) (fb : Handler) (r : Request) :
    (∀ u, findMap m r.path = some u →
      lookupHandler m fb r = Response.redirect u statusFound)
    ∧ (findMap m r.path = none → lookupHandler m fb r = fb r)
    ∧ MapHandler m fb = lookupHandler m fb
    ∧ (∀ (p : Unmarshal) (bs : Bytes) (recs : List Rcd), p bs = Except.ok recs →
        YAMLHandler p bs fb = Except.ok (lookupHandler (buildRedirectMap recs) fb))
    ∧ (∀ (p : Unmarshal) (bs : Bytes) (recs : List Rcd), p bs = Except.ok recs →
        JSONHandler p bs fb = Except.ok (lookupHandler (buildRedirectMap recs) fb))
    ∧ BoltHandler (Except.ok none) fb =
        BoltRun.ret (some seededBucket)
          (lookupHandler (readSnapshot (some seededBucket)) fb) none := by
  refine ⟨?_, ?_, rfl, ?_, ?_, rfl⟩
  · intro u hu
    simp [lookupHandler, hu]
  · intro hu
    simp [lookupHandler, hu]
  · intro p bs recs hp
    simp [YAMLHandler, hp]
  · intro p bs recs hp
    simp [JSONHandler, hp]

/-- Claim C3 witness at a concrete map, request and fallback. -/
theorem lookup_redirect_or_fallback_witness :
    lookupHandler [("/a", "https://a.example")] hello ⟨"/a"⟩ =
      Response.redirect "https://a.example" statusFound
    ∧ lookupHandler [("/a", "https://a.example")] hello ⟨"/c"⟩ = hello ⟨"/c"⟩ :=
  ⟨(lookup_redirect_or_fallback [("/a", "https://a.example")] hello ⟨"/a"⟩).1
      "https://a.example" (by decide),
   (lookup_redirect_or_fallback [("/a", "https://a.example")] hello ⟨"/c"⟩).2.1 (by decide)⟩

/-- Claim C5: a record with no path field (resp. no url field) contributes
an entry whose key (resp. value) is the empty string, because plain Go map
indexing yields the zero value; the builder is total, so no error is
raised for such records. -/
theorem missing_field_empty_entry (data : List Rcd) (m : Rcd) :
    (containsKey m "path" = false → goIndex m "path" = "")
    ∧ (containsKey m "url" = false → goIndex m "url" = "")
    ∧ buildRedirectMap (data ++ [m]) =
        mapInsert (buildRedirectMap data) (goIndex m "path") (goIndex m "url") := by
  refine ⟨?_, ?_, buildRedirectMap_concat data m⟩
  · intro h
    rw [goIndex, (containsKey_false_iff m "path").mp h]
    rfl
  · intro h
    rw [goIndex, (containsKey_false_iff m "url").mp h]
    rfl

/-- Claim C5 witness: a record carrying only a url field contributes the
entry with key "". -/
theorem missing_field_empty_entry_witness :
    goIndex [("url", "https://x.example")] "path" = ""
    ∧ buildRedirectMap ([] ++ [[("url", "https://x.example")]]) =
        mapInsert (buildRedirectMap []) (goIndex [("url", "https://x.example")] "path")
          (goIndex [("url", "https://x.example")] "url") :=
  ⟨(missing_field_empty_entry [] [("url", "https://x.example")]).1 (by decide),
   (missing_field_empty_entry [] [("url", "https://x.example")]).2.2⟩

/-- Claim C6: duplicate paths silently overwrite earlier entries in input
order: the built map sends each path to the url of the last input record
carrying that path, and the builder is total (no deduplication error). -/
theorem duplicate_paths_last_write_wins (data : List Rcd) (k : String) :
    findMap (buildRedirectMap data) k =
      (data.filterMap (fun m =>
        if goIndex m "path" = k then some (goIndex m "url") else none)).getLast? :=
  findMap_buildRedirectMap data k

/-- Claim C7: with an unmarshalling that decodes the serialized bytes back
to the given records, both file handlers build the lookup closure over
buildRedirectMap of those records; the built map has one entry per
distinct path, so with pairwise distinct paths it has exactly N entries
and maps the path of each record to the url of that record. -/
theorem roundtrip_entry_count (p : Unmarshal) (bs : Bytes) (fb : Handler)
    (data : List Rcd) (hp : p bs = Except.ok data) :
    YAMLHandler p bs fb = Except.ok (lookupHandler (buildRedirectMap data) fb)
    ∧ JSONHandler p bs fb = Except.ok (lookupHandler (buildRedirectMap data) fb)
    ∧ (buildRedirectMap data).length =
        (data.map (fun m => goIndex m "path")).toFinset.card
    ∧ ((data.map (fun m => goIndex m "path")).Nodup →
        (buildRedirectMap data).length = data.length
        ∧ ∀ m ∈ data, findMap (buildRedirectMap data) (goIndex m "path") =
            some (goIndex m "url")) := by
  refine ⟨by simp [YAMLHandler, hp], by simp [JSONHandler, hp],
    length_buildRedirectMap data, ?_⟩
  intro hnd
  constructor
  · rw [length_buildRedirectMap data, List.toFinset_card_of_nodup hnd, List.length_map]
  · intro m hm
    rw [findMap_buildRedirectMap, filterMap_path_of_nodup data m hm hnd]
    simp

/-- Records and unmarshalling used by the claim C7 witness. -/
def wData : List Rcd :=
  [[("path", "/a"), ("url", "https://a.example")],
   [("path", "/b"), ("url", "https://b.example")]]

/-- Unmarshalling that decodes back to wData. -/
def wUn : Unmarshal := fun _ => Except.ok wData

/-- Claim C7 witness: two records with distinct paths give two entries. -/
theorem roundtrip_entry_count_witness :
    YAMLHandler wUn [] hello = Except.ok (lookupHandler (buildRedirectMap wData) hello)
    ∧ (buildRedirectMap wData).length = 2 := by
  have h := roundtrip_entry_count wUn [] hello wData rfl
  refine ⟨h.1, ?_⟩
  have h2 := (h.2.2.2 (by decide)).1
  rw [h2]
  rfl

/-- JSON unmarshalling used by the claim C1 counterexample and witness:
it maps the static-map path /urlshort-godoc to a different url. -/
def cxJsonUn : Unmarshal :=
  fun _ => Except.ok [[("path", "/urlshort-godoc"), ("url", "https://json.example")]]

/-- YAML unmarshalling used by the claim C1 counterexample and witness:
an empty record list. -/
def cxYamlUn : Unmarshal := fun _ => Except.ok []

/-- Claim C1 counterexample: with a fresh bolt store, an empty YAML
source, and a JSON source that maps the static-map path /urlshort-godoc
to https://json.example, the served response for /urlshort-godoc is the
redirect to the JSON value, not to the static map value — the static map
does not have top priority. -/
theorem json_overrides_static_map :
    served (main (Except.ok none) (Except.ok []) (Except.ok []) cxYamlUn cxJsonUn)
        ⟨"/urlshort-godoc"⟩
      = some (Response.redirect "https://json.example" statusFound)
    ∧ findMap pathsToUrls "/urlshort-godoc" =
        some "https://godoc.org/github.com/gophercises/urlshort"
    ∧ Response.redirect "https://json.example" statusFound ≠
        Response.redirect "https://godoc.org/github.com/gophercises/urlshort" statusFound := by
  refine ⟨by decide, by decide, by decide⟩

/-- Claim C1 amended: main wires the chain in the priority order JSON
file, then YAML file, then key-value store, then static map, then the
default mux, and consequently any request path present in the JSON
mapping is answered with a 302 redirect to exactly the JSON value,
regardless of the contents of the YAML, bolt and static sources. -/
theorem chain_priority_json_first
    (yb : Bytes) (yrecs recs : List Rcd)
    (bo : Except String BoltState) (yr jr : Except String Bytes)
    (yp jp : Unmarshal) (req : Request) (u : String)
    (hb : bo = Except.ok none) (hyr : yr = Except.ok yb)
    (hyp : yp yb = Except.ok yrecs)
    (hjp : jp (jsonDataOf jr) = Except.ok recs) :
    main bo yr jr yp jp = MainOutcome.serving
        (lookupHandler (buildRedirectMap recs)
          (lookupHandler (buildRedirectMap yrecs)
            (lookupHandler (readSnapshot (some seededBucket))
              (lookupHandler pathsToUrls hello))))
    ∧ (findMap (buildRedirectMap recs) req.path = some u →
        served (main bo yr jr yp jp) req = some (Response.redirect u statusFound)) := by
  subst hb
  subst hyr
  have hmain := main_serving_shape yb yrecs recs jr yp jp hyp hjp
  refine ⟨hmain, ?_⟩
  intro hu
  rw [hmain]
  simp [served, lookupHandler, hu]

/-- Claim C1 amended witness: the counterexample configuration, where the
JSON mapping wins for /urlshort-godoc. -/
theorem chain_priority_json_first_witness :
    served (main (Except.ok none) (Except.ok []) (Except.ok []) cxYamlUn cxJsonUn)
        ⟨"/urlshort-godoc"⟩
      = some (Response.redirect "https://json.example" statusFound) :=
  (chain_priority_json_first [] []
      [[("path", "/urlshort-godoc"), ("url", "https://json.example")]]
      (Except.ok none) (Except.ok []) (Except.ok []) cxYamlUn cxJsonUn
      ⟨"/urlshort-godoc"⟩ "https://json.example" rfl rfl rfl rfl).2 (by decide)

/-- Claim C2: when the request path is absent from the JSON, YAML, bolt
snapshot and static mappings, every handler in the chain delegates to its
fallback and the final response is the hello page: status 200 with the
fixed greeting (fmt.Fprintln adds the line terminator). -/
theorem unmatched_path_serves_greeting
    (yb : Bytes) (yrecs recs : List Rcd)
    (bo : Except String BoltState) (yr jr : Except String Bytes)
    (yp jp : Unmarshal) (req : Request)
    (hb : bo = Except.ok none) (hyr : yr = Except.ok yb)
    (hyp : yp yb = Except.ok yrecs)
    (hjp : jp (jsonDataOf jr) = Except.ok recs)
    (h1 : findMap (buildRedirectMap recs) req.path = none)
    (h2 : findMap (buildRedirectMap yrecs) req.path = none)
    (h3 : findMap (readSnapshot (some seededBucket)) req.path = none)
    (h4 : findMap pathsToUrls req.path = none) :
    served (main bo yr jr yp jp) req = some (Response.page 200 "Hello, world!\n") := by
  subst hb
  subst hyr
  rw [main_serving_shape yb yrecs recs jr yp jp hyp hjp]
  simp [served, lookupHandler, h1, h2, h3, h4, hello]

/-- YAML unmarshalling used by the claim C2 witness. -/
def w2Yaml : Unmarshal := fun _ => Except.ok [[("path", "/b"), ("url", "https://b.example")]]

/-- JSON unmarshalling used by the claim C2 witness. -/
def w2Json : Unmarshal := fun _ => Except.ok []

/-- Claim C2 witness: the spec scenario request to /c gets the greeting. -/
theorem unmatched_path_serves_greeting_witness :
    served (main (Except.ok none) (Except.ok []) (Except.ok []) w2Yaml w2Json) ⟨"/c"⟩
      = some (Response.page 200 "Hello, world!\n") :=
  unmatched_path_serves_greeting [] [[("path", "/b"), ("url", "https://b.example")]] []
    (Except.ok none) (Except.ok []) (Except.ok []) w2Yaml w2Json ⟨"/c"⟩
    rfl rfl rfl rfl (by decide) (by decide) (by decide) (by decide)

/-- Claim C4: when unmarshalling fails, YAMLHandler and JSONHandler return
the parse error and no handler at all (so no partially built mapping can
be observed), and in main such a construction error ends startup with
panic(err) carrying that parse error instead of reaching serving. -/
theorem malformed_input_fails_construction
    (p : Unmarshal) (bs : Bytes) (fb : Handler) (e : String)
    (hp : p bs = Except.error e) :
    YAMLHandler p bs fb = Except.error e
    ∧ JSONHandler p bs fb = Except.error e
    ∧ (∀ (jr : Except String Bytes) (jp : Unmarshal),
        main (Except.ok none) (Except.ok bs) jr p jp = MainOutcome.panicked e)
    ∧ (∀ (yb : Bytes) (yrecs : List Rcd) (yp : Unmarshal),
        yp yb = Except.ok yrecs →
        main (Except.ok none) (Except.ok yb) (Except.ok bs) yp p =
          MainOutcome.panicked e) := by
  refine ⟨by simp [YAMLHandler, hp], by simp [JSONHandler, hp], ?_, ?_⟩
  · intro jr jp
    simp only [main, MapHandler, defaultMux, boltFresh, YAMLHandler, hp]
  · intro yb yrecs yp hyp2
    simp only [main, MapHandler, defaultMux, boltFresh, YAMLHandler, hyp2,
      JSONHandler, jsonDataOf, hp]

/-- Unmarshalling used by the claim C4 witness: always a parse error. -/
def w4Un : Unmarshal := fun _ => Except.error "yaml: unmarshal errors"

/-- Claim C4 witness: a failing unmarshal yields the error and aborts main. -/
theorem malformed_input_fails_construction_witness :
    YAMLHandler w4Un [] hello = Except.error "yaml: unmarshal errors"
    ∧ main (Except.ok none) (Except.ok []) (Except.ok []) w4Un w4Un =
        MainOutcome.panicked "yaml: unmarshal errors" :=
  ⟨(malformed_input_fails_construction w4Un [] hello "yaml: unmarshal errors" rfl).1,
   (malformed_input_fails_construction w4Un [] hello "yaml: unmarshal errors" rfl).2.2.1
      (Except.ok []) w4Un⟩

/-- Claim C8 (code bug in the source): the first construction on a fresh
store seeds the bucket and returns the seeded snapshot with no error, but
a second construction on the resulting store panics instead of returning
the same snapshot: CreateBucket fails with ErrBucketExists and a nil
bucket, the code checks the stale open error instead of the CreateBucket
error, and Put is then called on the nil bucket. -/
theorem second_open_panics :
    BoltHandler (Except.ok none) hello =
      BoltRun.ret (some seededBucket)
        (lookupHandler (readSnapshot (some seededBucket)) hello) none
    ∧ BoltHandler (Except.ok (some seededBucket)) hello = BoltRun.panicked :=
  ⟨rfl, rfl⟩

/-- Claim C9: whenever BoltHandler returns at all, the returned error is
nil — its only return statement is `return func(...), nil` — and an open
failure ends the process via log.Fatal rather than an error return, so
the error check after BoltHandler in main can never fire. -/
theorem boltHandler_error_always_nil
    (openResult : Except String BoltState) (fb : Handler) :
    (∀ st h e, BoltHandler openResult fb = BoltRun.ret st h e → e = none)
    ∧ (∀ msg, openResult = Except.error msg →
        BoltHandler openResult fb = BoltRun.fatal msg) := by
  constructor
  · intro st h e hret
    cases openResult with
    | error msg => simp [BoltHandler] at hret
    | ok stt =>
      cases hub : boltUpdateBody stt with
      | panicked => simp [BoltHandler, hub] at hret
      | committed st2 =>
        simp [BoltHandler, hub] at hret
        exact hret.2.2.symm
  · intro msg hmsg
    subst hmsg
    rfl

/-- Claim C9 witness: concrete nil error on a fresh store, and log.Fatal
on an open failure. -/
theorem boltHandler_error_always_nil_witness :
    (none : Option String) = none
    ∧ BoltHandler (Except.error "timeout") hello = BoltRun.fatal "timeout" :=
  ⟨(boltHandler_error_always_nil (Except.ok none) hello).1 (some seededBucket)
      (lookupHandler (readSnapshot (some seededBucket)) hello) none rfl,
   (boltHandler_error_always_nil (Except.error "timeout") hello).2 "timeout" rfl⟩

/-- Claim C10: main overwrites the json read error before checking it, so
a failed json read never aborts startup by itself and the read error
never appears in the outcome; with the read failed, jsonData is empty, and
startup aborts exactly when unmarshalling that empty data fails, with the
parse error — otherwise the server comes up. -/
theorem json_read_error_discarded
    (yb : Bytes) (yrecs : List Rcd) (eRead : String)
    (yp jp : Unmarshal) (hyp : yp yb = Except.ok yrecs) :
    (∀ eJ, jp ([] : Bytes) = Except.error eJ →
      main (Except.ok none) (Except.ok yb) (Except.error eRead) yp jp =
        MainOutcome.panicked eJ)
    ∧ (∀ recs, jp ([] : Bytes) = Except.ok recs →
      main (Except.ok none) (Except.ok yb) (Except.error eRead) yp jp =
        MainOutcome.serving
          (lookupHandler (buildRedirectMap recs)
            (lookupHandler (buildRedirectMap yrecs)
              (lookupHandler (readSnapshot (some seededBucket))
                (lookupHandler pathsToUrls hello))))) := by
  constructor
  · intro eJ hj
    simp only [main, MapHandler, defaultMux, boltFresh, YAMLHandler, hyp,
      JSONHandler, jsonDataOf, hj]
  · intro recs hj
    exact main_serving_shape yb yrecs recs (Except.error eRead) yp jp hyp hj

/-- YAML unmarshalling used by the claim C10 witness. -/
def w10Yaml : Unmarshal := fun _ => Except.ok []

/-- JSON unmarshalling used by the claim C10 witness: empty input is not
valid JSON for encoding/json. -/
def w10Json : Unmarshal := fun _ => Except.error "unexpected end of JSON input"

/-- Claim C10 witness: a failed json read aborts with the parse error of
the empty data, not with the read error. -/
theorem json_read_error_discarded_witness :
    main (Except.ok none) (Except.ok [])
        (Except.error "open urlmappings.json: no such file or directory")
        w10Yaml w10Json
      = MainOutcome.panicked "unexpected end of JSON input" :=
  (json_read_error_discarded [] [] "open urlmappings.json: no such file or directory"
      w10Yaml w10Json rfl).1 "unexpected end of JSON input" rfl

end Urlshort
